import Mathlib

/-!
Verification development for the `cfx-experiments` repository
(`eventchecker.py`, `prototype-deptree.py`, `prototype_manifest_parser.py`).

The Python sources are shallowly embedded: Python `dict`s become ordered
association lists with insert-or-update-in-place semantics, Python `set`s
become `Finset String`, file paths become plain strings, and the `while`
loop of the dependency resolver is modelled with explicit fuel.
-/

set_option maxRecDepth 4000

namespace Cfx

/-! ## Python `dict` model

Ordered association lists with the semantics of a Python `dict`:
assigning to an existing key updates the value in place (keeping the
key's original position), assigning to a new key appends it at the end.
-/

/-- `d[k] = v` for a Python `dict` modelled as an ordered association list. -/
def dictSet {V : Type} (d : List (String × V)) (k : String) (v : V) :
    List (String × V) :=
  match d with
  | [] => [(k, v)]
  | (k', v') :: rest =>
    if k' = k then (k, v) :: rest else (k', v') :: dictSet rest k v

/-- `d.get(k)` / `d[k]`: first (only) binding of key `k`. -/
def dictGet {V : Type} (d : List (String × V)) (k : String) : Option V :=
  match d with
  | [] => none
  | (k', v') :: rest => if k' = k then some v' else dictGet rest k

/-- `k in d` for a Python `dict`. -/
def dictContains {V : Type} (d : List (String × V)) (k : String) : Bool :=
  match d with
  | [] => false
  | (k', _) :: rest => k' = k || dictContains rest k

/-! ## Glob matching (`fnmatch.fnmatch` with `*` and `?`)

`EventMatch.is_ignored_event` calls `fnmatch.fnmatch(event_name, pattern)`.
On a POSIX host `normcase` is the identity, so matching is case-sensitive.
The model implements the `*` (any sequence) and `?` (any one character)
wildcards; no pattern in the built-in ignore list, and no pattern this
development instantiates, contains a bracket character class. -/

/-- Glob match on character lists: `*` matches any sequence, `?` any one
character, anything else itself.  Fuel-recursive so the kernel can evaluate
it; each step shrinks `pattern.length + s.length`, so
`pattern.length + s.length + 1` fuel always suffices. -/
def globMatch : Nat → List Char → List Char → Bool
  | 0, _, _ => false
  | fuel + 1, p, s =>
    match p, s with
    | [], s => s.isEmpty
    | '*' :: p, s =>
      globMatch fuel p s ||
        (match s with
        | [] => false
        | _ :: s' => globMatch fuel ('*' :: p) s')
    | '?' :: p, s =>
      match s with
      | [] => false
      | _ :: s' => globMatch fuel p s'
    | c :: p, s =>
      match s with
      | [] => false
      | d :: s' => c = d && globMatch fuel p s'

/-- `fnmatch.fnmatch(name, pattern)`. -/
def fnmatch (name pattern : String) : Bool :=
  globMatch (pattern.length + name.length + 1) pattern.data name.data

/-! ## `eventchecker.py`: event extraction and correlation -/

/-- `IGNORED_EVENTS`: the built-in default list of ignored event-name
glob patterns in `eventchecker.py`. -/
def IGNORED_EVENTS : List String := [
  "__cfx_internal:*",
  "__cfx_nui:*",
  "gameEventTriggered",
  "onClientResourceStart",
  "onClientResourceStop",
  "onResourceStart",
  "onResourceStarting",
  "onResourceStop",
  "onServerResourceStart",
  "onServerResourceStop",
  "onResourceListRefresh",
  "playerConnecting",
  "playerDropped",
  "populationPedCreating",
  "rconCommand",
  "weaponDamageEvent",
  "vehicleComponentControlEvent",
  "respawnPlayerPedEvent",
  "explosionEvent",
  "entityCreated",
  "entityCreating",
  "entityRemoved",
  "playerEnteredScope",
  "playerLeftScope",
  "baseevents:*",
  "chatMessage",
  "chat:*",
  "hostingSession",
  "hostedSession",
  "sessionHostResult",
  "playerSpawned",
  "mapmanager:*",
  "onClientMapStart",
  "onClientMapStop",
  "onClientGameTypeStart",
  "onClientGameTypeStop",
  "onMapStart",
  "onMapStop",
  "onGameTypeStart",
  "onGameTypeStop"]

/-- `list(dict.fromkeys(xs))`: order-preserving deduplication, used to build
the effective ignore lists from the defaults plus the user-supplied ones. -/
def dedupKeys (xs : List String) : List String :=
  (xs.foldl (fun acc x => dictSet acc x ()) []).map Prod.fst

/-- The effective ignored-events list:
`list(dict.fromkeys(IGNORED_EVENTS + ignore_events))`. -/
def mkIgnoredEvents (ignore_events : List String) : List String :=
  dedupKeys (IGNORED_EVENTS ++ ignore_events)

/-- `LocationInfo`: one recorded call-site. -/
structure LocationInfo where
  path : String
  line : Nat
  script_type : String
  deriving DecidableEq, Repr

/-- `EventMatch`: groupdict of one regex match (`func`, `event`) plus the
accumulated `locations` dict keyed by source-file path. -/
structure EventMatch where
  func : String
  event : String
  locations : List (String × LocationInfo)
  deriving DecidableEq, Repr

namespace EventMatch

/-- `EventMatch.add`: `self.locations[path] = LocationInfo(path, line, script_type)` —
a Python dict assignment keyed by the file path. -/
def add (m : EventMatch) (path : String) (line : Nat) (script_type : String) :
    EventMatch :=
  { m with locations := dictSet m.locations path ⟨path, line, script_type⟩ }

/-- `EventMatch.is_event_handler`. -/
def is_event_handler (m : EventMatch) : Bool :=
  ["AddEventHandler", "on", "onNet", "addEventListener",
   "addNetEventListener"].contains m.func

/-- `EventMatch.is_event_emitter`. -/
def is_event_emitter (m : EventMatch) : Bool :=
  ["TriggerEvent", "TriggerClientEvent", "TriggerServerEvent",
   "emit", "emitNet", "TriggerLatentClientEvent",
   "TriggerLatentServerEvent"].contains m.func

/-- `EventMatch.is_net_event_register`. -/
def is_net_event_register (m : EventMatch) : Bool :=
  ["RegisterNetEvent", "RegisterServerEvent"].contains m.func

/-- `EventMatch.is_ignored_event`: any ignored pattern fnmatches the name. -/
def is_ignored_event (m : EventMatch) (ignored_events : List String) : Bool :=
  ignored_events.any fun pattern => fnmatch m.event pattern

/-- `EventMatch.formatted_paths`: the `path:line` lines joined by newlines,
in location-dict insertion order. -/
def formatted_paths (m : EventMatch) : String :=
  String.intercalate "\n"
    (m.locations.map fun kv => kv.2.path ++ ":" ++ toString kv.2.line)

end EventMatch

/-- The three global indexes of `CfxEventChecker`. -/
structure CheckerState where
  handlers : List (String × EventMatch)
  emitters : List (String × EventMatch)
  registers : List (String × EventMatch)
  deriving DecidableEq, Repr

/-- The empty initial state of `CfxEventChecker.__init__`. -/
def CheckerState.initial : CheckerState := ⟨[], [], []⟩

/-- One `if result.event_name not in index: index[name] = result` followed by
`index[name].add(...)` step of `CfxEventChecker.process_match`. -/
def indexAdd (index : List (String × EventMatch)) (result : EventMatch)
    (path : String) (line : Nat) (script_type : String) :
    List (String × EventMatch) :=
  let index' :=
    if dictContains index result.event then index
    else dictSet index result.event result
  match dictGet index' result.event with
  | some r => dictSet index' result.event (r.add path line script_type)
  | none => index'

/-- `CfxEventChecker.process_match`: drop ignored events, otherwise record the
match in each index whose role predicate holds. -/
def process_match (ignored_events : List String) (st : CheckerState)
    (result : EventMatch) (path : String) (line : Nat) (script_type : String) :
    CheckerState :=
  if result.is_ignored_event ignored_events then st
  else
    let st :=
      if result.is_event_handler then
        { st with handlers := indexAdd st.handlers result path line script_type }
      else st
    let st :=
      if result.is_event_emitter then
        { st with emitters := indexAdd st.emitters result path line script_type }
      else st
    if result.is_net_event_register then
      { st with registers := indexAdd st.registers result path line script_type }
    else st

/-- One scanned call-site, as handed to `process_match`. -/
structure ScanEntry where
  result : EventMatch
  path : String
  line : Nat
  script_type : String

/-- Folding a sequence of retained scanner matches through `process_match`. -/
def processAll (ignored_events : List String) (st : CheckerState)
    (entries : List ScanEntry) : CheckerState :=
  entries.foldl
    (fun st e => process_match ignored_events st e.result e.path e.line e.script_type)
    st

/-! ### `CfxEventChecker.results` -/

/-- `check = self.emitters.values() if triggers else self.handlers.values()`. -/
def results_check (st : CheckerState) (triggers : Bool) :
    List (String × EventMatch) :=
  if triggers then st.emitters else st.handlers

/-- `compare = self.handlers if triggers else self.emitters`. -/
def results_compare (st : CheckerState) (triggers : Bool) :
    List (String × EventMatch) :=
  if triggers then st.handlers else st.emitters

/-- The report blocks: every record of `check` whose `event_name` is not a key
of `compare`, in `check`'s insertion order. -/
def report_blocks (st : CheckerState) (triggers : Bool) : List EventMatch :=
  ((results_check st triggers).map Prod.snd).filter
    fun m => !dictContains (results_compare st triggers) m.event

/-- The event names heading the report blocks of `CfxEventChecker.results`. -/
def reported_events (st : CheckerState) (triggers : Bool) : List String :=
  (report_blocks st triggers).map EventMatch.event

/-- The full `data` list that `CfxEventChecker.results` joins into the output
text (header lines, tip lines, then one block per reported event). -/
def results_output (st : CheckerState) (triggers : Bool) : List String :=
  (if triggers then
    ["Listing file paths for triggered events,",
     "that **possibly** do not have defined handlers anywhere"]
   else
    ["Listing file paths for events that have defined handlers,",
     "and are **possibly** not triggered anywhere"]) ++
  ["**Tip:** Copy path line, Ctrl+P and paste to quickly jump to location", ""] ++
  (report_blocks st triggers).flatMap
    fun m => ["# " ++ m.event, m.formatted_paths, ""]

/-! ## Comment stripping

`CfxEventChecker.process_file` strips comments with `re.sub(pattern, repl, text)`
where `repl` is `CfxEventChecker.comment_replace` (each comment span becomes as
many newlines as it contains).  `CfxResource.parse_manifest` in
`eventchecker.py` strips the same Lua comment patterns but with the empty
string as replacement.  The regex scans are embedded as left-to-right,
leftmost-match character scanners, fuel-recursive (each step consumes at least
one input character, so `length + 1` fuel suffices); on exhausted fuel the
remaining text is returned unchanged. -/

/-- `CfxEventChecker.comment_replace`: a matched span is replaced by one
newline per newline it contains. -/
def comment_replace (span : List Char) : List Char :=
  List.replicate (span.count '\n') '\n'

/-- Split at the first occurrence of the two-character sequence `c₁ c₂`:
returns the part before and the part after. -/
def splitTwo (c₁ c₂ : Char) : List Char → Option (List Char × List Char)
  | [] => none
  | c :: rest =>
    if c = c₁ ∧ rest.head? = some c₂ then some ([], rest.tail)
    else
      match splitTwo c₁ c₂ rest with
      | some (a, b) => some (c :: a, b)
      | none => none

/-- Split at the first occurrence of `]]` (the lazy `.*?\]\]` of
`LUA_BLOCK_COMMENT`): returns the part before and the part after. -/
def splitCloseBB (s : List Char) : Option (List Char × List Char) :=
  splitTwo ']' ']' s

/-- Split at the first occurrence of `*/` (the lazy `.*?\*\/` of
`JS_COMMENTS`). -/
def splitCloseJS (s : List Char) : Option (List Char × List Char) :=
  splitTwo '*' '/' s

/-- `re.sub(LUA_BLOCK_COMMENT, repl, s)`: `--\[\[.*?\]\](?:--)?` with
`DOTALL`. -/
def luaBlockSub (repl : List Char → List Char) : Nat → List Char → List Char
  | 0, s => s
  | fuel + 1, s =>
    match s with
    | '-' :: '-' :: '[' :: '[' :: rest =>
      match splitCloseBB rest with
      | some (mid, after) =>
        match after with
        | '-' :: '-' :: after' =>
          repl ('-' :: '-' :: '[' :: '[' :: (mid ++ [']', ']', '-', '-'])) ++
            luaBlockSub repl fuel after'
        | _ =>
          repl ('-' :: '-' :: '[' :: '[' :: (mid ++ [']', ']'])) ++
            luaBlockSub repl fuel after
      | none => '-' :: luaBlockSub repl fuel ('-' :: '[' :: '[' :: rest)
    | c :: rest => c :: luaBlockSub repl fuel rest
    | [] => []

/-- `re.sub(LUA_SINGLE_COMMENT, repl, s)`: `--(?!\[\[).+$\r?\n` with
`MULTILINE`.  A match needs `--` not followed by `[[`, at least one
non-newline character, and a terminating newline (a `--` comment on the last
line of a file without a trailing newline is not matched). -/
def luaSingleSub (repl : List Char → List Char) : Nat → List Char → List Char
  | 0, s => s
  | fuel + 1, s =>
    match s with
    | '-' :: '-' :: rest =>
      match rest with
      | '[' :: '[' :: _ => '-' :: luaSingleSub repl fuel ('-' :: rest)
      | _ =>
        let body := rest.takeWhile (fun c => c ≠ '\n')
        let tail := rest.dropWhile (fun c => c ≠ '\n')
        if body.isEmpty then '-' :: luaSingleSub repl fuel ('-' :: rest)
        else
          match tail with
          | '\n' :: tail' =>
            repl ('-' :: '-' :: (body ++ ['\n'])) ++ luaSingleSub repl fuel tail'
          | _ => '-' :: luaSingleSub repl fuel ('-' :: rest)
    | c :: rest => c :: luaSingleSub repl fuel rest
    | [] => []

/-- Python's `\s` on the ASCII range. -/
def isPySpace (c : Char) : Bool :=
  c = ' ' || c = '\t' || c = '\n' || c = '\r' || c = '\x0b' || c = '\x0c'

/-- The lazy `(.+?)$` of the `//` alternative of `JS_COMMENTS`
(`MULTILINE | DOTALL`): the shortest non-empty prefix ending where `$`
matches (before a newline or at the end of input). -/
def lazyBody : List Char → Option (List Char × List Char)
  | [] => none
  | c :: rest =>
    if rest.isEmpty ∨ rest.head? = some '\n' then some ([c], rest)
    else
      match lazyBody rest with
      | some (a, b) => some (c :: a, b)
      | none => none

/-- `re.sub(JS_COMMENTS, repl, s)`:
`(?:(?:^|\s)\/\/(.+?)$)|(?:\/\*(.*?)\*\/)` with `MULTILINE | DOTALL`.
`bol` tracks whether `^` matches at the current position (start of input or
preceded by a newline in the original text). -/
def jsSub (repl : List Char → List Char) : Nat → Bool → List Char → List Char
  | 0, _, s => s
  | fuel + 1, bol, s =>
    match s with
    | [] => []
    | '/' :: '*' :: rest =>
      match splitCloseJS rest with
      | some (mid, after) =>
        repl ('/' :: '*' :: (mid ++ ['*', '/'])) ++ jsSub repl fuel false after
      | none => '/' :: jsSub repl fuel false ('*' :: rest)
    | '/' :: '/' :: rest =>
      if bol then
        match lazyBody rest with
        | some (body, rest') =>
          repl ('/' :: '/' :: body) ++
            jsSub repl fuel (body.getLast? = some '\n') rest'
        | none => '/' :: jsSub repl fuel false ('/' :: rest)
      else '/' :: jsSub repl fuel false ('/' :: rest)
    | w :: '/' :: '/' :: rest =>
      if isPySpace w then
        match lazyBody rest with
        | some (body, rest') =>
          repl (w :: '/' :: '/' :: body) ++
            jsSub repl fuel (body.getLast? = some '\n') rest'
        | none => w :: jsSub repl fuel (w = '\n') ('/' :: '/' :: rest)
      else w :: jsSub repl fuel (w = '\n') ('/' :: '/' :: rest)
    | c :: rest => c :: jsSub repl fuel (c = '\n') rest

/-- The Lua comment stripping of `CfxEventChecker.process_file`
(`.lua` branch): block comments, then line comments, each replaced via
`comment_replace`. -/
def lua_strip (s : String) : String :=
  let b := luaBlockSub comment_replace (s.data.length + 1) s.data
  ⟨luaSingleSub comment_replace (b.length + 1) b⟩

/-- The JS comment stripping of `CfxEventChecker.process_file`
(`.js` branch). -/
def js_strip (s : String) : String :=
  ⟨jsSub comment_replace (s.data.length + 1) true s.data⟩

/-- The manifest comment stripping of `CfxResource.parse_manifest` in
`eventchecker.py`: the same Lua comment patterns, but
`re.sub(pattern, '', contents)` — comments are deleted outright. -/
def manifest_strip (s : String) : String :=
  let b := luaBlockSub (fun _ => []) (s.data.length + 1) s.data
  ⟨luaSingleSub (fun _ => []) (b.length + 1) b⟩

/-- The manifest comment stripping of `CfxResource._parse_manifest` in
`prototype_manifest_parser.py`: the same Lua comment patterns with the
local `comment_replace` (newline-preserving) replacement. -/
def proto_manifest_strip (s : String) : String :=
  let b := luaBlockSub comment_replace (s.data.length + 1) s.data
  ⟨luaSingleSub comment_replace (b.length + 1) b⟩

/-- Number of newline characters: two texts have the same line count
exactly when this agrees. -/
def countNewlines (s : String) : Nat :=
  s.data.count '\n'

/-! ## Manifest value parsing (`CfxResource._parse_values` and the
driver error flow of `eventchecker.py`)

`_parse_values` dispatches on the first character of the text following a
recognized declaration keyword.  Its `raise ValueError` (bare, on an
unrecognized first character, and the `str.index` failures) is caught in
`parse_manifest` and re-raised as a `ValueError` naming the manifest's
relative path and the offending fragment; `contents[0]` / `contents[istart]`
on a too-short text raises an `IndexError` that the `except ValueError` does
not catch.  `CfxEventChecker.process` calls `parse_manifest` with no handler,
so either exception propagates out of `process` and `main` never reaches
`app.results(...)`. -/

-- Equality of `Except` results is decidable componentwise (used to evaluate
-- the embedded parsers on concrete manifests).
deriving instance DecidableEq for Except

/-- Python exception kinds raised inside `_parse_values`: `str.index` on a
missing substring and the bare `raise` produce `ValueError`; `ast.literal_eval`
on malformed text produces `SyntaxError` (not caught by `except ValueError`);
indexing a too-short string produces `IndexError`. -/
inductive PyErr where
  | valueError
  | syntaxError
  | indexError
  deriving DecidableEq, Repr

/-- `s.index(c)` / the split at the first occurrence of character `c`:
the part before and the part after. -/
def splitAtChar (c : Char) : List Char → Option (List Char × List Char)
  | [] => none
  | x :: rest =>
    if x = c then some ([], rest)
    else
      match splitAtChar c rest with
      | some (a, b) => some (x :: a, b)
      | none => none

/-- Strip Python whitespace from both ends. -/
def pyStrip (s : List Char) : List Char :=
  ((s.dropWhile isPySpace).reverse.dropWhile isPySpace).reverse

/-- One quoted string literal at the head of `s`: `'` or `"` delimited,
single-line body (escape sequences not modelled).  Returns the body and the
remaining text. -/
def parseQuoted (s : List Char) : Option (String × List Char) :=
  match s with
  | q :: rest =>
    if q = '\'' || q = '"' then
      match splitAtChar q rest with
      | some (body, tail) =>
        if body.contains '\n' then none else some (⟨body⟩, tail)
      | none => none
    else none
  | [] => none

/-- A string literal possibly followed by further adjacent string literals,
which CPython concatenates (`'a' 'b'` evaluates to `'ab'`). -/
def parseConcat : Nat → String → List Char → Option (String × List Char)
  | 0, acc, s => some (acc, s)
  | fuel + 1, acc, s =>
    let s' := s.dropWhile isPySpace
    match parseQuoted s' with
    | some (b, tail) => parseConcat fuel (acc ++ b) tail
    | none => some (acc, s)

/-- `ast.literal_eval` applied to the text of the `(`-without-`{` branch of
`_parse_values`: a quoted string literal (with CPython's adjacent-literal
concatenation), surrounded by optional whitespace.  Anything else is
modelled as `SyntaxError` (CPython also accepts non-string literals such as
numbers or tuples there; those produce a non-string value unrepresentable in
this model and are likewise mapped to `syntaxError`). -/
def literalEvalStr (s : List Char) : Except PyErr String :=
  match parseQuoted (s.dropWhile isPySpace) with
  | some (b, tail) =>
    match parseConcat (tail.length + 1) b tail with
    | some (v, tail') =>
      if pyStrip tail' = [] then .ok v else .error .syntaxError
    | none => .error .syntaxError
  | none => .error .syntaxError

/-- `ast.literal_eval('[' + s + ']')` for the brace-list branches of
`_parse_values`: comma-separated quoted string literals (with
adjacent-literal concatenation) under arbitrary whitespace, optional
trailing comma.  Failures are `SyntaxError`; non-string element literals
are unrepresentable and also mapped to `syntaxError`. -/
def literalEvalList : Nat → List Char → Except PyErr (List String)
  | 0, _ => .error .syntaxError
  | fuel + 1, s =>
    match s.dropWhile isPySpace with
    | [] => .ok []
    | s' =>
      match parseQuoted s' with
      | some (b, tail) =>
        match parseConcat (tail.length + 1) b tail with
        | some (v, tail') =>
          match pyStrip tail' with
          | [] => .ok [v]
          | ',' :: tail'' =>
            match literalEvalList fuel tail'' with
            | .ok vs => .ok (v :: vs)
            | .error e => .error e
          | _ => .error .syntaxError
        | none => .error .syntaxError
      | none => .error .syntaxError

/-- `CfxResource._parse_values(contents)`: classify by the first significant
character of the text following the declaration keyword. -/
def _parse_values (contents : List Char) : Except PyErr (List String) :=
  match contents with
  | [] => .error .indexError
  | '(' :: rest =>
    match rest with
    | [] => .error .indexError
    | '{' :: rest' =>
      match splitAtChar '}' rest' with
      | some (mid, _) => literalEvalList (mid.length + 1) mid
      | none => .error .valueError
    | _ =>
      match splitAtChar ')' rest with
      | some (pre, _) =>
        match literalEvalStr pre with
        | .ok v => .ok [v]
        | .error e => .error e
      | none =>
        match literalEvalStr rest.dropLast with
        | .ok v => .ok [v]
        | .error e => .error e
  | q :: rest =>
    if q = '\'' || q = '"' then
      match splitAtChar q rest with
      | some (pre, _) => .ok [⟨pre⟩]
      | none => .error .valueError
    else if q = '{' then
      match splitAtChar '}' rest with
      | some (mid, _) => literalEvalList (mid.length + 1) mid
      | none => .error .valueError
    else .error .valueError

/-- `re.search(LINE_MAP_REGEX, s)` at position 0: the first line of `s`,
including its newline when present (`contents[start:end]` of the error
fragment). -/
def firstLineInc (s : List Char) : List Char :=
  let a := s.takeWhile (fun c => c ≠ '\n')
  match s.dropWhile (fun c => c ≠ '\n') with
  | '\n' :: _ => a ++ ['\n']
  | _ => a

/-- One `MANIFEST_SCRIPT_KEY` match in a comment-stripped manifest:
`matched` is `match.group()`, `script_type` is capture group 1, `value` is
`contents[match.end():]` (the rest of the manifest text). -/
structure ManifestDecl where
  matched : String
  script_type : String
  value : String
  deriving DecidableEq, Repr

/-- One discovered manifest: its path relative to the scan root, and its
script declarations in document order. -/
structure Manifest where
  relPath : String
  decls : List ManifestDecl
  deriving DecidableEq, Repr

/-- An exception escaping `CfxEventChecker.process`. -/
inductive RunError where
  /-- The re-raised `ValueError` of `parse_manifest`, carrying the manifest's
  relative path and the unparsed fragment
  (`match.group() + contents[start:end]`). -/
  | parse (file fragment : String)
  /-- Any other exception (the `IndexError` of `contents[0]`, a
  `SyntaxError` from `ast.literal_eval`), which the `except ValueError` of
  `parse_manifest` does not catch. -/
  | uncaught
  deriving DecidableEq, Repr

/-- `CfxResource.parse_manifest` (value-collection part): run `_parse_values`
on each declaration; a `ValueError` is re-raised with the manifest path and
fragment, any other error propagates as-is.  (The subsequent `@`-filtering
and filesystem glob expansion of the collected `(value, script_type)` pairs
are filesystem-bound and outside the claims.) -/
def parse_manifest (m : Manifest) : Except RunError (List (String × String)) :=
  m.decls.foldl
    (fun acc d =>
      match acc with
      | .error e => .error e
      | .ok vs =>
        match _parse_values d.value.data with
        | .ok values => .ok (vs ++ values.map fun v => (v, d.script_type))
        | .error .valueError =>
          .error (.parse m.relPath (d.matched ++ ⟨firstLineInc d.value.data⟩))
        | .error _ => .error .uncaught)
    (.ok [])

/-- `CfxEventChecker.process` over the discovered manifests:
`parse_manifest` is called with no surrounding `try`, so its exception
aborts the loop and escapes `process`. -/
def process_run (ms : List Manifest) :
    Except RunError (List (String × String × String)) :=
  match ms with
  | [] => .ok []
  | m :: rest =>
    match parse_manifest m with
    | .error e => .error e
    | .ok fs =>
      match process_run rest with
      | .error e => .error e
      | .ok rest' => .ok (fs.map (fun vt => (m.relPath, vt.1, vt.2)) ++ rest')

/-- Whether the run reaches the reporting phase: `main` calls
`app.process()` and then `app.results(...)`; an exception in `process`
propagates and no report is produced. -/
def run_produces_report (ms : List Manifest) : Bool :=
  match process_run ms with
  | .ok _ => true
  | .error _ => false

/-! ## Enablement filter (`CfxConfig.parse_resources`)

The recursive `_parse_contents_r` is embedded as a worklist machine: a stack
of remaining-line lists (the suspended callers), fuel-recursive.  `started`
is a `Dict[str, None]` (ordered keys), `seen` the `seen_paths` set.
Path strings are joined as `dir ++ "/" ++ name` (`Path.joinpath`;
`resolve()` canonicalization is not modelled). -/

/-- A config-name character: `[a-z\d_.-]` with `IGNORECASE`. -/
def isCfgNameChar (c : Char) : Bool :=
  c.isAlpha || c.isDigit || c = '_' || c = '.' || c = '-'

/-- `re.match(CFG_KEY, line)`: a maximal non-empty run of ASCII letters
(`[a-z]+`, `IGNORECASE`), at least one space or tab, then a maximal
non-empty run of name characters; anything may follow.  The captured
`command` keeps its original case (the comparisons in `parse_resources`
are case-sensitive). -/
def cfgKeyMatch (s : List Char) : Option (String × String) :=
  let cmd := s.takeWhile Char.isAlpha
  let rest := s.dropWhile Char.isAlpha
  if cmd.isEmpty then none
  else
    let sp := rest.takeWhile fun c => c = ' ' || c = '\t'
    let rest2 := rest.dropWhile fun c => c = ' ' || c = '\t'
    if sp.isEmpty then none
    else
      let name := rest2.takeWhile isCfgNameChar
      if name.isEmpty then none else some (⟨cmd⟩, ⟨name⟩)

/-- The mutable state of `parse_resources`: the ordered `started` keys and
the `seen_paths` set. -/
structure CfgState where
  started : List String
  seen : List String
  deriving DecidableEq, Repr

/-- The config filesystem: path → lines (`contents.splitlines()`). -/
def lookupCfgFile (fs : List (String × List String)) (p : String) :
    Option (List String) :=
  match fs.find? fun f => f.1 = p with
  | some f => some f.2
  | none => none

/-- The worklist machine for `_parse_contents_r`: process the head line of
the head frame; `exec` pushes the referenced file's lines as a new frame
(resolved against the ROOT config's directory `rootDir`), a seen path is
skipped with a warning, unreadable files are skipped.  One unit of fuel per
processed line or popped frame. -/
def runCfg (fs : List (String × List String)) (rootDir : String) :
    Nat → CfgState → List (List String) → CfgState
  | 0, st, _ => st
  | _, st, [] => st
  | fuel + 1, st, [] :: frames => runCfg fs rootDir fuel st frames
  | fuel + 1, st, (line :: rest) :: frames =>
    let stripped := pyStrip line.data
    if stripped.isEmpty || stripped.head? = some '#' then
      runCfg fs rootDir fuel st (rest :: frames)
    else
      match cfgKeyMatch stripped with
      | none => runCfg fs rootDir fuel st (rest :: frames)
      | some (cmd, name) =>
        if cmd = "exec" then
          let p := rootDir ++ "/" ++ name
          if p ∈ st.seen then runCfg fs rootDir fuel st (rest :: frames)
          else
            let st' : CfgState := { st with seen := p :: st.seen }
            match lookupCfgFile fs p with
            | none => runCfg fs rootDir fuel st' (rest :: frames)
            | some lines => runCfg fs rootDir fuel st' (lines :: rest :: frames)
        else if cmd = "ensure" || cmd = "start" || cmd = "restart" then
          if name ∈ st.started then runCfg fs rootDir fuel st (rest :: frames)
          else
            runCfg fs rootDir fuel { st with started := st.started ++ [name] }
              (rest :: frames)
        else if cmd = "stop" then
          if name ∈ st.started then
            runCfg fs rootDir fuel { st with started := st.started.erase name }
              (rest :: frames)
          else runCfg fs rootDir fuel st (rest :: frames)
        else runCfg fs rootDir fuel st (rest :: frames)

/-- `CfxConfig.parse_resources`: process the root config (whose path is
already in `seen`), returning `list(started)`. -/
def parse_resources (fs : List (String × List String)) (rootDir : String)
    (rootPath : String) : List String :=
  let fuel := fs.foldl (fun a f => a + f.2.length) 0 + fs.length + 2
  match lookupCfgFile fs rootPath with
  | none => []
  | some lines => (runCfg fs rootDir fuel ⟨[], [rootPath]⟩ [lines]).started

/-! ## Dependency resolver (`resolve_dependencies` in `prototype-deptree.py`)

The dictionary of name → set-of-dependencies becomes an ordered association
list over `Finset String`; the `while d:` loop gets explicit fuel
(`none` = the loop is still running after that many iterations).  Note the
source computes each layer as `set(i for v in d.values() for i in v)` — the
`- set(d.keys())` of the referenced algorithm is commented out — unioned
with the keys whose dependency set is empty. -/

/-- `set(i for v in d.values() for i in v)`. -/
def depValuesUnion (d : List (String × Finset String)) : Finset String :=
  d.foldl (fun acc kv => acc ∪ kv.2) ∅

/-- One layer `t`: all names occurring as a dependency value, plus the keys
with an empty dependency set. -/
def depLayer (d : List (String × Finset String)) : Finset String :=
  depValuesUnion d ∪ ((d.filter fun kv => kv.2 = ∅).map Prod.fst).toFinset

/-- `d = {k: (v - t) for k, v in d.items() if v}`. -/
def depStep (d : List (String × Finset String)) :
    List (String × Finset String) :=
  (d.filter fun kv => kv.2 ≠ ∅).map fun kv => (kv.1, kv.2 \ depLayer d)

/-- The `while d:` loop with fuel: `none` when the fuel is exhausted before
`d` is empty, otherwise the list of layers. -/
def resolveAux : Nat → List (String × Finset String) → Option (List (Finset String))
  | 0, d => if d.isEmpty then some [] else none
  | fuel + 1, d =>
    if d.isEmpty then some []
    else
      match resolveAux fuel (depStep d) with
      | some r => some (depLayer d :: r)
      | none => none

/-- `resolve_dependencies(arg)`: `{k: set(v) for k, v in arg.items()}` then
the layering loop.  `arg.length + 2` fuel is provably sufficient
(every dependency value is in every layer, so all value sets are emptied
after one iteration). -/
def resolve_dependencies (arg : List (String × List String)) :
    Option (List (Finset String)) :=
  resolveAux (arg.length + 2) (arg.map fun kv => (kv.1, kv.2.toFinset))

/-! ## Helper lemmas on the dict model -/

theorem dictGet_dictSet_self {V : Type} (d : List (String × V)) (k : String)
    (v : V) : dictGet (dictSet d k v) k = some v := by
  induction d with
  | nil => simp [dictSet, dictGet]
  | cons kv rest ih =>
    obtain ⟨k', v'⟩ := kv
    by_cases h : k' = k <;> simp [dictSet, dictGet, h, ih]

theorem dictContains_dictSet_ne {V : Type} (d : List (String × V))
    (k k' : String) (v : V) (h : k ≠ k') :
    dictContains (dictSet d k' v) k = dictContains d k := by
  have h' : ¬(k' = k) := fun hh => h hh.symm
  induction d with
  | nil => simp [dictSet, dictContains, h']
  | cons kv rest ih =>
    obtain ⟨k₀, v₀⟩ := kv
    by_cases h₀ : k₀ = k' <;> simp [dictSet, dictContains, h₀, ih, h']

theorem dictContains_eq_isSome {V : Type} (d : List (String × V))
    (k : String) : dictContains d k = (dictGet d k).isSome := by
  induction d with
  | nil => simp [dictContains, dictGet]
  | cons kv rest ih =>
    obtain ⟨k', v'⟩ := kv
    by_cases h : k' = k <;> simp [dictContains, dictGet, h, ih]

theorem dictGet_mem {V : Type} (d : List (String × V)) (k : String) (v : V)
    (h : dictGet d k = some v) : (k, v) ∈ d := by
  induction d with
  | nil => simp [dictGet] at h
  | cons kv rest ih =>
    obtain ⟨k', v'⟩ := kv
    by_cases h' : k' = k
    · subst h'
      simp [dictGet] at h
      simp [h]
    · simp [dictGet, h'] at h
      exact List.mem_cons_of_mem _ (ih h)

theorem mem_dictSet_self {V : Type} (d : List (String × V)) (k : String)
    (v : V) : (k, v) ∈ dictSet d k v := by
  induction d with
  | nil => simp [dictSet]
  | cons kv rest ih =>
    obtain ⟨k', v'⟩ := kv
    by_cases h : k' = k <;> simp [dictSet, h, ih]

theorem mem_dictSet_of_ne {V : Type} (d : List (String × V))
    (k k' : String) (v v' : V) (hmem : (k', v') ∈ d) (h : k' ≠ k) :
    (k', v') ∈ dictSet d k v := by
  induction d with
  | nil => simp at hmem
  | cons kv rest ih =>
    obtain ⟨k₀, v₀⟩ := kv
    rcases List.mem_cons.1 hmem with h₀ | h₀
    · obtain ⟨rfl, rfl⟩ := Prod.mk.injEq .. ▸ h₀
      by_cases hk : k' = k
      · exact absurd hk h
      · simp [dictSet, hk]
    · by_cases hk : k₀ = k <;> simp [dictSet, hk, ih h₀, h₀]

theorem dictSet_dictSet_self {V : Type} (d : List (String × V)) (k : String)
    (v v' : V) : dictSet (dictSet d k v) k v' = dictSet d k v' := by
  induction d with
  | nil => simp [dictSet]
  | cons kv rest ih =>
    obtain ⟨k₀, v₀⟩ := kv
    by_cases h : k₀ = k <;> simp [dictSet, h, ih]

theorem dictContains_indexAdd_ne (idx : List (String × EventMatch))
    (r : EventMatch) (p : String) (l : Nat) (t : String) (name : String)
    (h : name ≠ r.event) :
    dictContains (indexAdd idx r p l t) name = dictContains idx name := by
  unfold indexAdd
  cases hc : dictContains idx r.event <;>
    · simp only [hc, if_true, if_false, Bool.false_eq_true, if_neg]
      split <;>
        simp [dictContains_dictSet_ne _ _ _ _ h]

/-! ## C1 and C10: the correlator-reporter -/

/-- C1: an event name that is a key of both the `handlers` and the
`emitters` index heads no report block, for either value of the direction
flag. -/
theorem C1_both_indexed_never_reported (st : CheckerState) (name : String)
    (hh : dictContains st.handlers name = true)
    (he : dictContains st.emitters name = true) (triggers : Bool) :
    name ∉ reported_events st triggers := by
  intro hmem
  unfold reported_events report_blocks at hmem
  rw [List.mem_map] at hmem
  obtain ⟨m, hm, hevent⟩ := hmem
  rw [List.mem_filter] at hm
  obtain ⟨-, hcond⟩ := hm
  rw [hevent] at hcond
  cases triggers
  · simp [results_compare, he] at hcond
  · simp [results_compare, hh] at hcond

theorem C1_both_indexed_never_reported_witness :
    "evtA" ∉ reported_events
      ⟨[("evtA", ⟨"AddEventHandler", "evtA", [("a.lua", ⟨"a.lua", 3, "server"⟩)]⟩)],
       [("evtA", ⟨"TriggerEvent", "evtA", [("b.lua", ⟨"b.lua", 9, "client"⟩)]⟩)],
       []⟩ true ∧
    "evtA" ∉ reported_events
      ⟨[("evtA", ⟨"AddEventHandler", "evtA", [("a.lua", ⟨"a.lua", 3, "server"⟩)]⟩)],
       [("evtA", ⟨"TriggerEvent", "evtA", [("b.lua", ⟨"b.lua", 9, "client"⟩)]⟩)],
       []⟩ false :=
  ⟨C1_both_indexed_never_reported _ "evtA" (by decide) (by decide) true,
   C1_both_indexed_never_reported _ "evtA" (by decide) (by decide) false⟩

/-- C10: `CfxEventChecker.results` never consults the `registers` index —
the output is unchanged under any replacement of `registers` — and an event
name that is net-registered and emitted but has no handler entry is still
reported in the reverse (`triggers = true`) direction. -/
theorem C10_registers_never_consulted :
    (∀ (h e r₁ r₂ : List (String × EventMatch)) (triggers : Bool),
       results_output ⟨h, e, r₁⟩ triggers = results_output ⟨h, e, r₂⟩ triggers) ∧
    (∀ (st : CheckerState) (name : String) (m : EventMatch),
       dictGet st.emitters name = some m → m.event = name →
       dictContains st.handlers name = false →
       dictContains st.registers name = true →
       name ∈ reported_events st true) := by
  constructor
  · intro h e r₁ r₂ triggers
    rfl
  · intro st name m hget hevent hh _
    unfold reported_events report_blocks
    rw [List.mem_map]
    refine ⟨m, ?_, hevent⟩
    rw [List.mem_filter]
    constructor
    · simp only [results_check, if_pos]
      exact List.mem_map_of_mem Prod.snd (dictGet_mem _ _ _ hget)
    · simp [results_compare, hevent, hh]

theorem C10_registers_never_consulted_witness :
    "netEvt" ∈ reported_events
      ⟨[],
       [("netEvt", ⟨"TriggerServerEvent", "netEvt", [("c.js", ⟨"c.js", 4, "client"⟩)]⟩)],
       [("netEvt", ⟨"RegisterNetEvent", "netEvt", [("s.lua", ⟨"s.lua", 1, "server"⟩)]⟩)]⟩
      true :=
  C10_registers_never_consulted.2 _ "netEvt"
    ⟨"TriggerServerEvent", "netEvt", [("c.js", ⟨"c.js", 4, "client"⟩)]⟩
    (by decide) rfl (by decide) (by decide)

/-! ## C2: ignored events never enter the indexes -/

theorem process_match_preserves_absent (pats : List String) (name : String)
    (hp : pats.any (fun pat => fnmatch name pat) = true)
    (st : CheckerState) (r : EventMatch) (p : String) (l : Nat) (t : String)
    (hh : dictContains st.handlers name = false)
    (he : dictContains st.emitters name = false) :
    dictContains (process_match pats st r p l t).handlers name = false ∧
    dictContains (process_match pats st r p l t).emitters name = false := by
  unfold process_match
  by_cases hig : r.is_ignored_event pats
  · simp only [hig, if_true]
    exact ⟨hh, he⟩
  · have hne : name ≠ r.event := by
      intro hEq
      apply hig
      unfold EventMatch.is_ignored_event
      rw [← hEq]
      exact hp
    simp only [hig, Bool.false_eq_true, if_neg, if_false]
    cases hhd : r.is_event_handler <;> cases hem : r.is_event_emitter <;>
      cases hreg : r.is_net_event_register <;>
        simp [dictContains_indexAdd_ne _ r p l t name hne, hh, he]

/-- C2: a call-site whose event name matches some pattern of the effective
ignored-events list (built-in defaults unioned with the user-supplied
patterns) never contributes an entry for that name to the `handlers` or
`emitters` index, over any sequence of retained matches. -/
theorem C2_ignored_never_indexed (user : List String) (name : String)
    (hig : (mkIgnoredEvents user).any (fun pat => fnmatch name pat) = true)
    (entries : List ScanEntry) (st : CheckerState)
    (hh : dictContains st.handlers name = false)
    (he : dictContains st.emitters name = false) :
    dictContains (processAll (mkIgnoredEvents user) st entries).handlers name = false ∧
    dictContains (processAll (mkIgnoredEvents user) st entries).emitters name = false := by
  induction entries generalizing st with
  | nil => exact ⟨hh, he⟩
  | cons e rest ih =>
    have hstep := process_match_preserves_absent (mkIgnoredEvents user) name hig
      st e.result e.path e.line e.script_type hh he
    exact ih _ hstep.1 hstep.2

theorem C2_ignored_never_indexed_witness :
    (mkIgnoredEvents []).any (fun pat => fnmatch "chat:addMessage" pat) = true ∧
    dictContains (processAll (mkIgnoredEvents []) CheckerState.initial
      [⟨⟨"emit", "chat:addMessage", []⟩, "c.js", 2, "client"⟩,
       ⟨⟨"AddEventHandler", "chat:addMessage", []⟩, "a.lua", 5, "server"⟩]).handlers
      "chat:addMessage" = false ∧
    dictContains (processAll (mkIgnoredEvents []) CheckerState.initial
      [⟨⟨"emit", "chat:addMessage", []⟩, "c.js", 2, "client"⟩,
       ⟨⟨"AddEventHandler", "chat:addMessage", []⟩, "a.lua", 5, "server"⟩]).emitters
      "chat:addMessage" = false :=
  ⟨by decide,
   (C2_ignored_never_indexed [] "chat:addMessage" (by decide)
     [⟨⟨"emit", "chat:addMessage", []⟩, "c.js", 2, "client"⟩,
      ⟨⟨"AddEventHandler", "chat:addMessage", []⟩, "a.lua", 5, "server"⟩]
     CheckerState.initial (by decide) (by decide)).1,
   (C2_ignored_never_indexed [] "chat:addMessage" (by decide)
     [⟨⟨"emit", "chat:addMessage", []⟩, "c.js", 2, "client"⟩,
      ⟨⟨"AddEventHandler", "chat:addMessage", []⟩, "a.lua", 5, "server"⟩]
     CheckerState.initial (by decide) (by decide)).2⟩

/-! ## C3: per-file location bookkeeping -/

theorem indexAdd_new (idx : List (String × EventMatch)) (r : EventMatch)
    (p : String) (l : Nat) (t : String)
    (h : dictContains idx r.event = false) :
    dictGet (indexAdd idx r p l t) r.event = some (r.add p l t) := by
  unfold indexAdd
  simp only [h, Bool.false_eq_true, if_neg, if_false,
    dictGet_dictSet_self, dictGet_dictSet_self]

theorem indexAdd_existing (idx : List (String × EventMatch))
    (r m : EventMatch) (p : String) (l : Nat) (t : String)
    (h : dictGet idx r.event = some m) :
    dictGet (indexAdd idx r p l t) r.event = some (m.add p l t) := by
  unfold indexAdd
  have hc : dictContains idx r.event = true := by
    rw [dictContains_eq_isSome, h]
    rfl
  simp only [hc, if_true, h, dictGet_dictSet_self]

/-- C3 counterexample: two matches for the same event name in the same
source file do NOT both survive — the `locations` dict is keyed by file
path, so the second `(line, role)` pair overwrites the first and only the
last one remains. -/
theorem C3_counterexample :
    (dictGet (processAll [] CheckerState.initial
        [⟨⟨"AddEventHandler", "evt", []⟩, "res/a.lua", 3, "server"⟩,
         ⟨⟨"AddEventHandler", "evt", []⟩, "res/a.lua", 7, "server"⟩]).handlers
      "evt") =
      some ⟨"AddEventHandler", "evt",
            [("res/a.lua", ⟨"res/a.lua", 7, "server"⟩)]⟩ ∧
    ((dictGet (processAll [] CheckerState.initial
        [⟨⟨"AddEventHandler", "evt", []⟩, "res/a.lua", 3, "server"⟩,
         ⟨⟨"AddEventHandler", "evt", []⟩, "res/a.lua", 7, "server"⟩]).handlers
      "evt").map fun r => r.locations.map fun kv => kv.2.line) = some [7] := by
  decide

/-- C3 (amended): an `EventRecord` is created on the first sighting of a
name and every later sighting merges into that same record's location
mapping; occurrences in distinct files are all preserved, but the mapping is
keyed by file path, so a second occurrence in the same file replaces the
earlier one (only the last `(line, role)` per file survives). -/
theorem C3_record_merge_semantics :
    (∀ (idx : List (String × EventMatch)) (r : EventMatch) (p : String)
       (l : Nat) (t : String), dictContains idx r.event = false →
       dictGet (indexAdd idx r p l t) r.event = some (r.add p l t)) ∧
    (∀ (idx : List (String × EventMatch)) (r m : EventMatch) (p : String)
       (l : Nat) (t : String), dictGet idx r.event = some m →
       dictGet (indexAdd idx r p l t) r.event = some (m.add p l t)) ∧
    (∀ (m : EventMatch) (p₁ : String) (l₁ : Nat) (t₁ : String)
       (p₂ : String) (l₂ : Nat) (t₂ : String), p₁ ≠ p₂ →
       (p₁, ⟨p₁, l₁, t₁⟩) ∈ ((m.add p₁ l₁ t₁).add p₂ l₂ t₂).locations ∧
       (p₂, ⟨p₂, l₂, t₂⟩) ∈ ((m.add p₁ l₁ t₁).add p₂ l₂ t₂).locations) ∧
    (∀ (m : EventMatch) (p : String) (l₁ : Nat) (t₁ : String)
       (l₂ : Nat) (t₂ : String),
       (m.add p l₁ t₁).add p l₂ t₂ = m.add p l₂ t₂) := by
  refine ⟨indexAdd_new, indexAdd_existing, ?_, ?_⟩
  · intro m p₁ l₁ t₁ p₂ l₂ t₂ hne
    unfold EventMatch.add
    constructor
    · exact mem_dictSet_of_ne _ _ _ _ _ (mem_dictSet_self _ _ _) hne
    · exact mem_dictSet_self _ _ _
  · intro m p l₁ t₁ l₂ t₂
    unfold EventMatch.add
    simp [dictSet_dictSet_self]

theorem C3_record_merge_semantics_witness :
    dictGet (indexAdd [] ⟨"on", "evt", []⟩ "a.lua" 1 "client") "evt" =
      some ⟨"on", "evt", [("a.lua", ⟨"a.lua", 1, "client"⟩)]⟩ ∧
    dictGet (indexAdd [("evt", ⟨"on", "evt", [("a.lua", ⟨"a.lua", 1, "client"⟩)]⟩)]
        ⟨"onNet", "evt", []⟩ "b.lua" 5 "server") "evt" =
      some ⟨"on", "evt", [("a.lua", ⟨"a.lua", 1, "client"⟩),
                          ("b.lua", ⟨"b.lua", 5, "server"⟩)]⟩ ∧
    ("x.lua", (⟨"x.lua", 2, "client"⟩ : LocationInfo)) ∈
      ((EventMatch.add ⟨"on", "evt", []⟩ "x.lua" 2 "client").add "y.lua" 4 "client").locations :=
  ⟨C3_record_merge_semantics.1 [] ⟨"on", "evt", []⟩ "a.lua" 1 "client" rfl,
   C3_record_merge_semantics.2.1
     [("evt", ⟨"on", "evt", [("a.lua", ⟨"a.lua", 1, "client"⟩)]⟩)]
     ⟨"onNet", "evt", []⟩
     ⟨"on", "evt", [("a.lua", ⟨"a.lua", 1, "client"⟩)]⟩
     "b.lua" 5 "server" (by decide),
   (C3_record_merge_semantics.2.2.1 ⟨"on", "evt", []⟩ "x.lua" 2 "client" "y.lua" 4 "client"
     (by decide)).1⟩

/-! ## C4 and C5: comment stripping preserves line structure -/

theorem comment_replace_count (span : List Char) :
    (comment_replace span).count '\n' = span.count '\n' := by
  simp [comment_replace]

theorem splitTwo_eq (c₁ c₂ : Char) :
    ∀ s a b, splitTwo c₁ c₂ s = some (a, b) → s = a ++ c₁ :: c₂ :: b := by
  intro s
  induction s with
  | nil => intro a b h; simp [splitTwo] at h
  | cons c rest ih =>
    intro a b h
    rw [splitTwo] at h
    split at h
    · rename_i hc
      obtain ⟨rfl, hc2⟩ := hc
      obtain ⟨rfl, rfl⟩ := Prod.mk.injEq .. ▸ Option.some.inj h
      cases rest with
      | nil => simp at hc2
      | cons c₂' t =>
        obtain rfl : c₂' = c₂ := by simpa using hc2
        rfl
    · split at h
      · rename_i a' b' heq
        obtain ⟨rfl, rfl⟩ := Prod.mk.injEq .. ▸ Option.some.inj h
        rw [ih a' b' heq]
        rfl
      · exact absurd h (by simp)

theorem lazyBody_eq :
    ∀ s a b, lazyBody s = some (a, b) → s = a ++ b := by
  intro s
  induction s with
  | nil => intro a b h; simp [lazyBody] at h
  | cons c rest ih =>
    intro a b h
    rw [lazyBody] at h
    split at h
    · obtain ⟨rfl, rfl⟩ := Prod.mk.injEq .. ▸ Option.some.inj h
      rfl
    · split at h
      · rename_i a' b' heq
        obtain ⟨rfl, rfl⟩ := Prod.mk.injEq .. ▸ Option.some.inj h
        rw [List.cons_append, ← ih a' b' heq]
      · exact absurd h (by simp)

theorem luaBlockSub_count (repl : List Char → List Char)
    (hrepl : ∀ span, (repl span).count '\n' = span.count '\n') :
    ∀ fuel s, (luaBlockSub repl fuel s).count '\n' = s.count '\n' := by
  intro fuel
  induction fuel with
  | zero => intro s; rfl
  | succ n ih =>
    intro s
    simp only [luaBlockSub]
    split
    · split
      · rename_i mid after heq
        have hb := splitTwo_eq ']' ']' _ mid after heq
        subst hb
        split
        · simp [hrepl, ih, List.count_append, List.count_cons]
        · simp [hrepl, ih, List.count_append, List.count_cons]
      · simp [ih, List.count_cons]
    · simp [ih, List.count_cons]
    · rfl

theorem luaSingleSub_count (repl : List Char → List Char)
    (hrepl : ∀ span, (repl span).count '\n' = span.count '\n') :
    ∀ fuel s, (luaSingleSub repl fuel s).count '\n' = s.count '\n' := by
  intro fuel
  induction fuel with
  | zero => intro s; rfl
  | succ n ih =>
    intro s
    simp only [luaSingleSub]
    split
    · rename_i rest
      split
      · simp [ih, List.count_cons]
      · split
        · simp [ih, List.count_cons]
        · split
          · rename_i tail' heq
            have hdecomp :
                rest = rest.takeWhile (fun c => decide (c ≠ '\n')) ++ '\n' :: tail' := by
              conv_lhs => rw [← List.takeWhile_append_dropWhile
                (p := fun c => decide (c ≠ '\n')) (l := rest)]
              rw [heq]
            conv_rhs => rw [hdecomp]
            simp [hrepl, ih, List.count_append, List.count_cons]
            all_goals omega
          · simp [ih, List.count_cons]
    · simp [ih, List.count_cons]
    · rfl

theorem jsSub_count (repl : List Char → List Char)
    (hrepl : ∀ span, (repl span).count '\n' = span.count '\n') :
    ∀ fuel bol s, (jsSub repl fuel bol s).count '\n' = s.count '\n' := by
  intro fuel
  induction fuel with
  | zero => intro bol s; rfl
  | succ n ih =>
    intro bol s
    simp only [jsSub]
    split
    · rfl
    · split
      · rename_i mid after heq
        have hb := splitTwo_eq '*' '/' _ mid after heq
        subst hb
        simp [hrepl, ih, List.count_append, List.count_cons]
      · simp [ih, List.count_cons]
    · split
      · split
        · rename_i body rest' heq
          have hb := lazyBody_eq _ body rest' heq
          subst hb
          simp [hrepl, ih, List.count_append, List.count_cons]
        · simp [ih, List.count_cons]
      · simp [ih, List.count_cons]
    · split
      · split
        · rename_i body rest' heq
          have hb := lazyBody_eq _ body rest' heq
          subst hb
          simp [hrepl, ih, List.count_append, List.count_cons]
          all_goals omega
        · simp [ih, List.count_cons]
      · simp [ih, List.count_cons]
    · simp [ih, List.count_cons]

/-- C4 counterexample: the `.lua` comment stripper does NOT return text of
identical length — a one-line block comment is replaced by the EMPTY string
(it contains no newlines), so the output is shorter than the input. -/
theorem C4_counterexample :
    lua_strip "--[[x]]y" = "y" ∧
    (lua_strip "--[[x]]y").length ≠ ("--[[x]]y" : String).length := by
  constructor
  · decide
  · decide

/-- C4 (amended): for both script dialects of
`CfxEventChecker.process_file`, the comment stripper returns text with the
same line count (newline count) as the input — each comment span is replaced
by exactly as many newline characters as it contains, which is the empty
string for a span containing none, so the overall length generally
shrinks. -/
theorem C4_line_count_preserved (s : String) :
    countNewlines (lua_strip s) = countNewlines s ∧
    countNewlines (js_strip s) = countNewlines s := by
  constructor
  · unfold lua_strip countNewlines
    rw [luaSingleSub_count comment_replace comment_replace_count]
    exact luaBlockSub_count comment_replace comment_replace_count _ _
  · unfold js_strip countNewlines
    exact jsSub_count comment_replace comment_replace_count _ _ _

/-- C5 counterexample: the manifest comment stripping of
`CfxResource.parse_manifest` in `eventchecker.py` substitutes the EMPTY
string for comments, so a block comment spanning two lines disappears and
the line count drops. -/
theorem C5_counterexample :
    manifest_strip "a\n--[[x\ny]]\nb" = "a\n\nb" ∧
    countNewlines (manifest_strip "a\n--[[x\ny]]\nb") ≠
      countNewlines "a\n--[[x\ny]]\nb" := by
  constructor
  · decide
  · decide

/-- C5 (amended): the newline-preserving round trip holds for the comment
stripping applied to script files (see `C4_line_count_preserved`) and for the
manifest stripping of `prototype_manifest_parser.py`, which uses
`comment_replace`; it does NOT hold for the manifest stripping of
`eventchecker.py`, which replaces comments with the empty string (see the
counterexample). -/
theorem C5_line_count_preserved (s : String) :
    countNewlines (proto_manifest_strip s) = countNewlines s := by
  unfold proto_manifest_strip countNewlines
  rw [luaSingleSub_count comment_replace comment_replace_count]
  exact luaBlockSub_count comment_replace comment_replace_count _ _

/-! ## C6: manifest value-parse failure and the driver error flow -/

theorem parse_values_bad_head (c : Char) (rest : List Char)
    (h1 : c ≠ '(') (h2 : c ≠ '\'') (h3 : c ≠ '"') (h4 : c ≠ '{') :
    _parse_values (c :: rest) = .error .valueError := by
  rw [_parse_values.eq_def]
  split
  · rename_i heq
    exact absurd heq (by simp)
  · rename_i heq
    injection heq with hc _
    exact absurd hc h1
  · rename_i q rest' hx heq
    injection heq with hq hr
    subst hq
    subst hr
    simp [h2, h3, h4]

/-- C6 counterexample: a manifest whose declared value text begins with an
unrecognized character produces a `ValueError` that `CfxEventChecker.process`
does not catch — the whole run errors out and produces NO report, even
though a later manifest is perfectly well-formed. -/
theorem C6_counterexample :
    run_produces_report
      [⟨"res/fxmanifest.lua", [⟨"client_script ", "client", "main.lua'\n"⟩]⟩,
       ⟨"res2/fxmanifest.lua", [⟨"server_script ", "server", "'a.lua' tail"⟩]⟩] =
      false ∧
    parse_manifest ⟨"res2/fxmanifest.lua", [⟨"server_script ", "server", "'a.lua' tail"⟩]⟩ =
      .ok [("a.lua", "server")] := by
  constructor
  · decide
  · decide

/-- C6 (amended): a declared value beginning with a character other than
`(`, a quote, or `{` makes `_parse_values` raise `ValueError`;
`parse_manifest` re-raises it as a parse error naming the manifest file and
the unparsed fragment; but the error is NOT caught by the driver — it aborts
the entire run (every remaining manifest is skipped) and no report is
produced. -/
theorem C6_parse_error_aborts_run :
    (∀ (c : Char) (rest : List Char),
       c ≠ '(' → c ≠ '\'' → c ≠ '"' → c ≠ '{' →
       _parse_values (c :: rest) = .error .valueError) ∧
    (∀ (file matched stype : String) (c : Char) (rest : List Char),
       c ≠ '(' → c ≠ '\'' → c ≠ '"' → c ≠ '{' →
       parse_manifest ⟨file, [⟨matched, stype, ⟨c :: rest⟩⟩]⟩ =
         .error (.parse file (matched ++ ⟨firstLineInc (c :: rest)⟩))) ∧
    (∀ (e : RunError) (m : Manifest) (ms : List Manifest),
       parse_manifest m = .error e → process_run (m :: ms) = .error e) ∧
    (∀ (ms : List Manifest) (e : RunError),
       process_run ms = .error e → run_produces_report ms = false) := by
  refine ⟨parse_values_bad_head, ?_, ?_, ?_⟩
  · intro file matched stype c rest h1 h2 h3 h4
    unfold parse_manifest
    simp only [List.foldl]
    rw [parse_values_bad_head c rest h1 h2 h3 h4]
  · intro e m ms h
    unfold process_run
    rw [h]
  · intro ms e h
    unfold run_produces_report
    rw [h]

theorem C6_parse_error_aborts_run_witness :
    parse_manifest
      ⟨"res/fxmanifest.lua", [⟨"client_script ", "client", "main.lua'\n"⟩]⟩ =
      .error (.parse "res/fxmanifest.lua" "client_script main.lua'\n") ∧
    run_produces_report
      [⟨"res/fxmanifest.lua", [⟨"client_script ", "client", "main.lua'\n"⟩]⟩] =
      false := by
  have h2 := C6_parse_error_aborts_run.2.1 "res/fxmanifest.lua"
    "client_script " "client" 'm' "ain.lua'\n".data
    (by decide) (by decide) (by decide) (by decide)
  refine ⟨h2, ?_⟩
  have h3 := C6_parse_error_aborts_run.2.2.1 _ _ [] h2
  exact C6_parse_error_aborts_run.2.2.2 _ _ h3

/-! ## C8 and C9: the dependency-resolver layering -/

theorem subset_foldl_union (d : List (String × Finset String)) :
    ∀ acc : Finset String, acc ⊆ d.foldl (fun a kv => a ∪ kv.2) acc := by
  induction d with
  | nil => intro acc; exact Finset.Subset.refl acc
  | cons kv d' ih =>
    intro acc
    exact (Finset.subset_union_left).trans (ih (acc ∪ kv.2))

theorem mem_subset_foldl (d : List (String × Finset String))
    (kv : String × Finset String) (h : kv ∈ d) :
    ∀ acc : Finset String, kv.2 ⊆ d.foldl (fun a kv => a ∪ kv.2) acc := by
  induction d with
  | nil => simp at h
  | cons a d' ih =>
    intro acc
    rcases List.mem_cons.1 h with rfl | h'
    · exact (Finset.subset_union_right).trans (subset_foldl_union d' (acc ∪ kv.2))
    · exact ih h' (acc ∪ a.2)

theorem depStep_values_empty (d : List (String × Finset String)) :
    ∀ kv' ∈ depStep d, kv'.2 = ∅ := by
  intro kv' h
  unfold depStep at h
  rw [List.mem_map] at h
  obtain ⟨kv, hkv, rfl⟩ := h
  have hd : kv ∈ d := (List.mem_filter.1 hkv).1
  have hsub : kv.2 ⊆ depLayer d :=
    (mem_subset_foldl d kv hd ∅).trans Finset.subset_union_left
  exact Finset.sdiff_eq_empty_iff_subset.mpr hsub

theorem depStep_depStep (d : List (String × Finset String)) :
    depStep (depStep d) = [] := by
  have h : (depStep d).filter (fun kv => kv.2 ≠ ∅) = [] := by
    rw [List.filter_eq_nil_iff]
    intro kv hkv
    simp [depStep_values_empty d kv hkv]
  calc depStep (depStep d)
      = (((depStep d).filter fun kv => kv.2 ≠ ∅).map
          fun kv => (kv.1, kv.2 \ depLayer (depStep d))) := rfl
    _ = [] := by rw [h]; rfl

theorem resolveAux_nil (n : Nat) : resolveAux n [] = some [] := by
  cases n <;> simp [resolveAux]

/-- C9 counterexample: the layering loop DOES terminate on the mutual
dependency `{A: [B], B: [A]}` — because the key subtraction of the
referenced algorithm is commented out, both names land in the first layer,
the remaining sets are emptied, and the loop finishes in two iterations. -/
theorem C9_counterexample :
    resolve_dependencies [("A", ["B"]), ("B", ["A"])] =
      some ([{"B", "A"}, {"A", "B"}] : List (Finset String)) ∧
    ({"B", "A"} : Finset String) = {"A", "B"} := by
  constructor
  · decide
  · decide

/-- C9 (amended): the layering loop of `resolve_dependencies` terminates on
EVERY dependency mapping, cyclic or not, within two iterations: each layer
contains every name occurring as a dependency value, so after one iteration
every remaining dependency set is empty and the next iteration drains the
dictionary. -/
theorem C9_layering_terminates (arg : List (String × List String)) :
    (resolve_dependencies arg).isSome = true := by
  unfold resolve_dependencies
  have key : ∀ (n : Nat) (d : List (String × Finset String)),
      (resolveAux (n + 2) d).isSome = true := by
    intro n d
    by_cases hd : d.isEmpty
    · simp [resolveAux, hd]
    · by_cases h1 : (depStep d).isEmpty
      · simp [resolveAux, hd, h1, resolveAux_nil]
      · simp [resolveAux, hd, h1, depStep_depStep, resolveAux_nil]
  exact key arg.length _

/-- C8 counterexample: on `{A: [B], B: [], C: [A]}` the resolver does NOT
return the layers `[{B}, {A}, {C}]` claimed by the specification. -/
theorem C8_counterexample :
    resolve_dependencies [("A", ["B"]), ("B", []), ("C", ["A"])] ≠
      some ([{"B"}, {"A"}, {"C"}] : List (Finset String)) := by
  decide

/-- C8 (amended): on `{A: [B], B: [], C: [A]}` the resolver returns
`[{A, B}, {A, C}]`: each layer is the set of ALL names appearing as a
dependency value (the `- set(d.keys())` of the referenced algorithm is
commented out) plus the keys with an empty dependency set, so `A` (a value
of `C`) joins `B` in the first layer. -/
theorem C8_layers :
    resolve_dependencies [("A", ["B"]), ("B", []), ("C", ["A"])] =
      some ([{"A", "B"}, {"A", "C"}] : List (Finset String)) := by
  decide

/-! ## C7: the enablement filter (`CfxConfig.parse_resources`) -/

/-- C7: the startup-config simulation returns started names in
first-activation order.  The concrete scenario `start foo` / `stop foo` /
`start foo` yields exactly `["foo"]`; and step by step: blank, `#`-comment,
unmatched and unrecognized-command lines are ignored; `ensure`/`start`/
`restart` appends the name only when not already started (re-adding keeps
the original position because the state is unchanged); `stop` removes the
name when present; `exec` of an already-seen path is skipped (cycle
warning), and `exec` of an unseen readable path marks it seen and processes
its lines (resolved against the root config's directory `rd`) before the
remaining lines. -/
theorem C7_enablement_filter :
    (parse_resources [("cfg/server.cfg", ["start foo", "stop foo", "start foo"])]
       "cfg" "cfg/server.cfg" = ["foo"]) ∧
    (∀ (fs : List (String × List String)) (rd : String) (fuel : Nat)
       (st : CfgState) (line : String) (rest : List String)
       (frames : List (List String)),
       pyStrip line.data = [] ∨ (pyStrip line.data).head? = some '#' →
       runCfg fs rd (fuel + 1) st ((line :: rest) :: frames) =
         runCfg fs rd fuel st (rest :: frames)) ∧
    (∀ (fs : List (String × List String)) (rd : String) (fuel : Nat)
       (st : CfgState) (line : String) (rest : List String)
       (frames : List (List String)),
       pyStrip line.data ≠ [] → (pyStrip line.data).head? ≠ some '#' →
       cfgKeyMatch (pyStrip line.data) = none →
       runCfg fs rd (fuel + 1) st ((line :: rest) :: frames) =
         runCfg fs rd fuel st (rest :: frames)) ∧
    (∀ (fs : List (String × List String)) (rd : String) (fuel : Nat)
       (st : CfgState) (line : String) (rest : List String)
       (frames : List (List String)) (cmd name : String),
       pyStrip line.data ≠ [] → (pyStrip line.data).head? ≠ some '#' →
       cfgKeyMatch (pyStrip line.data) = some (cmd, name) →
       cmd ≠ "exec" → cmd ≠ "ensure" → cmd ≠ "start" → cmd ≠ "restart" →
       cmd ≠ "stop" →
       runCfg fs rd (fuel + 1) st ((line :: rest) :: frames) =
         runCfg fs rd fuel st (rest :: frames)) ∧
    (∀ (fs : List (String × List String)) (rd : String) (fuel : Nat)
       (st : CfgState) (line : String) (rest : List String)
       (frames : List (List String)) (cmd name : String),
       pyStrip line.data ≠ [] → (pyStrip line.data).head? ≠ some '#' →
       cfgKeyMatch (pyStrip line.data) = some (cmd, name) →
       cmd = "ensure" ∨ cmd = "start" ∨ cmd = "restart" →
       name ∈ st.started →
       runCfg fs rd (fuel + 1) st ((line :: rest) :: frames) =
         runCfg fs rd fuel st (rest :: frames)) ∧
    (∀ (fs : List (String × List String)) (rd : String) (fuel : Nat)
       (st : CfgState) (line : String) (rest : List String)
       (frames : List (List String)) (cmd name : String),
       pyStrip line.data ≠ [] → (pyStrip line.data).head? ≠ some '#' →
       cfgKeyMatch (pyStrip line.data) = some (cmd, name) →
       cmd = "ensure" ∨ cmd = "start" ∨ cmd = "restart" →
       name ∉ st.started →
       runCfg fs rd (fuel + 1) st ((line :: rest) :: frames) =
         runCfg fs rd fuel ⟨st.started ++ [name], st.seen⟩ (rest :: frames)) ∧
    (∀ (fs : List (String × List String)) (rd : String) (fuel : Nat)
       (st : CfgState) (line : String) (rest : List String)
       (frames : List (List String)) (name : String),
       pyStrip line.data ≠ [] → (pyStrip line.data).head? ≠ some '#' →
       cfgKeyMatch (pyStrip line.data) = some ("stop", name) →
       name ∈ st.started →
       runCfg fs rd (fuel + 1) st ((line :: rest) :: frames) =
         runCfg fs rd fuel ⟨st.started.erase name, st.seen⟩ (rest :: frames)) ∧
    (∀ (fs : List (String × List String)) (rd : String) (fuel : Nat)
       (st : CfgState) (line : String) (rest : List String)
       (frames : List (List String)) (name : String),
       pyStrip line.data ≠ [] → (pyStrip line.data).head? ≠ some '#' →
       cfgKeyMatch (pyStrip line.data) = some ("stop", name) →
       name ∉ st.started →
       runCfg fs rd (fuel + 1) st ((line :: rest) :: frames) =
         runCfg fs rd fuel st (rest :: frames)) ∧
    (∀ (fs : List (String × List String)) (rd : String) (fuel : Nat)
       (st : CfgState) (line : String) (rest : List String)
       (frames : List (List String)) (name : String),
       pyStrip line.data ≠ [] → (pyStrip line.data).head? ≠ some '#' →
       cfgKeyMatch (pyStrip line.data) = some ("exec", name) →
       (rd ++ "/" ++ name) ∈ st.seen →
       runCfg fs rd (fuel + 1) st ((line :: rest) :: frames) =
         runCfg fs rd fuel st (rest :: frames)) ∧
    (∀ (fs : List (String × List String)) (rd : String) (fuel : Nat)
       (st : CfgState) (line : String) (rest : List String)
       (frames : List (List String)) (name : String) (lines : List String),
       pyStrip line.data ≠ [] → (pyStrip line.data).head? ≠ some '#' →
       cfgKeyMatch (pyStrip line.data) = some ("exec", name) →
       (rd ++ "/" ++ name) ∉ st.seen →
       lookupCfgFile fs (rd ++ "/" ++ name) = some lines →
       runCfg fs rd (fuel + 1) st ((line :: rest) :: frames) =
         runCfg fs rd fuel ⟨st.started, (rd ++ "/" ++ name) :: st.seen⟩
           (lines :: rest :: frames)) := by
  refine ⟨by decide, ?_, ?_, ?_, ?_, ?_, ?_, ?_, ?_, ?_⟩
  · intro fs rd fuel st line rest frames h
    rcases h with h | h <;> simp [runCfg, h]
  · intro fs rd fuel st line rest frames h1 h2 hm
    simp [runCfg, h1, h2, hm]
  · intro fs rd fuel st line rest frames cmd name h1 h2 hm hc1 hc2 hc3 hc4 hc5
    simp [runCfg, h1, h2, hm, hc1, hc2, hc3, hc4, hc5]
  · intro fs rd fuel st line rest frames cmd name h1 h2 hm hc hmem
    rcases hc with rfl | rfl | rfl <;> simp [runCfg, h1, h2, hm, hmem]
  · intro fs rd fuel st line rest frames cmd name h1 h2 hm hc hmem
    rcases hc with rfl | rfl | rfl <;> simp [runCfg, h1, h2, hm, hmem]
  · intro fs rd fuel st line rest frames name h1 h2 hm hmem
    simp [runCfg, h1, h2, hm, hmem]
  · intro fs rd fuel st line rest frames name h1 h2 hm hmem
    simp [runCfg, h1, h2, hm, hmem]
  · intro fs rd fuel st line rest frames name h1 h2 hm hseen
    simp [runCfg, h1, h2, hm, hseen]
  · intro fs rd fuel st line rest frames name lines h1 h2 hm hseen hlk
    simp [runCfg, h1, h2, hm, hseen, hlk]

theorem C7_enablement_filter_witness :
    runCfg [] "cfg" 1 ⟨["foo"], ["cfg/server.cfg"]⟩ [["start foo"]] =
      runCfg [] "cfg" 0 ⟨["foo"], ["cfg/server.cfg"]⟩ [[]] ∧
    runCfg [] "cfg" 1 ⟨["foo", "bar"], []⟩ [["stop foo"]] =
      runCfg [] "cfg" 0 ⟨["bar"], []⟩ [[]] :=
  ⟨C7_enablement_filter.2.2.2.2.1 [] "cfg" 0 ⟨["foo"], ["cfg/server.cfg"]⟩
     "start foo" [] [] "start" "foo"
     (by decide) (by decide) (by decide) (Or.inr (Or.inl rfl)) (by decide),
   C7_enablement_filter.2.2.2.2.2.2.1 [] "cfg" 0 ⟨["foo", "bar"], []⟩
     "stop foo" [] [] "foo"
     (by decide) (by decide) (by decide) (by decide)⟩

end Cfx
